import Mathlib

/-!
Shallow embedding of the in-memory book store of `src/server/main.go`
(`grpc-basic`): the `BookServer` state (record map plus id counter), its six
handlers (`CreateBook`, `GetBook`, `UpdateBook`, `DeleteBook`, `ListBooks`,
`SearchBooksByPrice`), and proofs of the specified properties.

Modelling conventions:
* the Go map `map[string]*pb.Book` is an association list `List (String × Book)`;
  assignment replaces the entry if the key is present and appends otherwise,
  `delete` removes the entry, and `range` enumerates in list order (Go map
  iteration order is unspecified; none of the proved properties depend on a
  particular order, only on the enumeration the model fixes);
* `price` (Go `float32`) is modelled as `ℚ`: the core performs no arithmetic on
  prices, only order comparisons, which ℚ models faithfully for ordinary values;
* `page`/`pageSize`/`publishYear`/`total` (Go `int32`) are carried as `Int`;
  the pagination window arithmetic `start = (page-1)*pageSize`,
  `end = start + pageSize` is computed with explicit 32-bit wrap-around
  (`wrap32`), since a caller-supplied large `page` really overflows `int32`;
* the id counter (Go `int64`, starts at 0, only ever incremented by one) is a
  `Nat`; its 64-bit wrap-around is not modelled;
* a handler takes the server state and the request and returns the gRPC-style
  result (`Except Status`) together with the post state.
-/

/-- gRPC status codes used by the server (`codes.InvalidArgument`, `codes.NotFound`). -/
inductive ErrCode where
  | invalidArgument
  | notFound
deriving DecidableEq, Repr

/-- A gRPC error status: code plus human-readable message (`status.Errorf`). -/
structure Status where
  code : ErrCode
  msg : String
deriving DecidableEq, Repr

/-- `pb.Book`: id, title, author, price, description, publish year. -/
structure Book where
  id : String
  title : String
  author : String
  price : ℚ
  description : String
  publishYear : Int
deriving DecidableEq, Repr

/-- `BookServer`: the record map (association list standing in for the Go map)
and the id-generation counter. The `sync.RWMutex` has no content in this
sequential model. -/
structure BookServer where
  books : List (String × Book)
  idCounter : Nat
deriving DecidableEq, Repr

/-- `NewBookServer()`: empty map, counter 0. -/
def NewBookServer : BookServer := { books := [], idCounter := 0 }

/-- Go map assignment `m[k] = v`: replace the entry holding `k`, or append. -/
def mapInsert (k : String) (v : Book) : List (String × Book) → List (String × Book)
  | [] => [(k, v)]
  | (k', v') :: rest =>
      if k' = k then (k, v) :: rest else (k', v') :: mapInsert k v rest

/-- Go map read `m[k]`: the value at `k`, if present. -/
def mapLookup (k : String) : List (String × Book) → Option Book
  | [] => none
  | (k', v) :: rest => if k' = k then some v else mapLookup k rest

/-- Go `delete(m, k)`: drop the entry holding `k`. -/
def mapRemove (k : String) (m : List (String × Book)) : List (String × Book) :=
  m.filter (fun p => p.1 ≠ k)

/-- `generateID`: increment the counter and format `"book-%d"` with the new
value. Returns the id together with the updated server. -/
def generateID (s : BookServer) : String × BookServer :=
  let c := s.idCounter + 1
  ("book-" ++ Nat.repr c, { s with idCounter := c })

/-- `pb.CreateBookRequest`. -/
structure CreateBookRequest where
  book : Book

/-- `pb.CreateBookResponse`. -/
structure CreateBookResponse where
  id : String
  message : String
deriving DecidableEq, Repr

/-- `CreateBook`: validate title, author, price in order; on success generate
an id, overwrite the record's id with it, store the record. -/
def CreateBook (s : BookServer) (req : CreateBookRequest) :
    Except Status CreateBookResponse × BookServer :=
  let book := req.book
  if book.title = "" then
    (.error ⟨.invalidArgument, "图书标题不能为空"⟩, s)
  else if book.author = "" then
    (.error ⟨.invalidArgument, "作者不能为空"⟩, s)
  else if book.price ≤ 0 then
    (.error ⟨.invalidArgument, "图书价格必须大于0"⟩, s)
  else
    let (bookID, s1) := generateID s
    let book := { book with id := bookID }
    let s2 := { s1 with books := mapInsert bookID book s1.books }
    (.ok ⟨bookID, "图书创建成功"⟩, s2)

/-- `pb.GetBookRequest`. -/
structure GetBookRequest where
  id : String

/-- `pb.GetBookResponse`. -/
structure GetBookResponse where
  book : Book
deriving DecidableEq, Repr

/-- `GetBook`: reject empty id, then look the record up. -/
def GetBook (s : BookServer) (req : GetBookRequest) :
    Except Status GetBookResponse × BookServer :=
  if req.id = "" then
    (.error ⟨.invalidArgument, "图书ID不能为空"⟩, s)
  else
    match mapLookup req.id s.books with
    | none => (.error ⟨.notFound, "图书不存在，ID: " ++ req.id⟩, s)
    | some book => (.ok ⟨book⟩, s)

/-- `pb.UpdateBookRequest`. -/
structure UpdateBookRequest where
  book : Book

/-- `pb.UpdateBookResponse`. -/
structure UpdateBookResponse where
  message : String
deriving DecidableEq, Repr

/-- `UpdateBook`: validate id, title, author, price in order; fail `NotFound`
if the id is absent; otherwise store the incoming record wholesale. -/
def UpdateBook (s : BookServer) (req : UpdateBookRequest) :
    Except Status UpdateBookResponse × BookServer :=
  let book := req.book
  if book.id = "" then
    (.error ⟨.invalidArgument, "图书ID不能为空"⟩, s)
  else if book.title = "" then
    (.error ⟨.invalidArgument, "图书标题不能为空"⟩, s)
  else if book.author = "" then
    (.error ⟨.invalidArgument, "作者不能为空"⟩, s)
  else if book.price ≤ 0 then
    (.error ⟨.invalidArgument, "图书价格必须大于0"⟩, s)
  else
    match mapLookup book.id s.books with
    | none => (.error ⟨.notFound, "图书不存在，ID: " ++ book.id⟩, s)
    | some _ =>
        (.ok ⟨"图书更新成功"⟩, { s with books := mapInsert book.id book s.books })

/-- `pb.DeleteBookRequest`. -/
structure DeleteBookRequest where
  id : String

/-- `pb.DeleteBookResponse`. -/
structure DeleteBookResponse where
  message : String
deriving DecidableEq, Repr

/-- `DeleteBook`: reject empty id, fail `NotFound` if absent, else remove. -/
def DeleteBook (s : BookServer) (req : DeleteBookRequest) :
    Except Status DeleteBookResponse × BookServer :=
  if req.id = "" then
    (.error ⟨.invalidArgument, "图书ID不能为空"⟩, s)
  else
    match mapLookup req.id s.books with
    | none => (.error ⟨.notFound, "图书不存在，ID: " ++ req.id⟩, s)
    | some _ =>
        (.ok ⟨"图书删除成功"⟩, { s with books := mapRemove req.id s.books })

/-- `pb.ListBooksRequest` (`page`, `page_size` are `int32`). -/
structure ListBooksRequest where
  page : Int
  pageSize : Int

/-- `pb.ListBooksResponse`. -/
structure ListBooksResponse where
  books : List Book
  total : Int
deriving DecidableEq, Repr

/-- 32-bit two's-complement wrap-around, the value a Go `int32` holds. -/
def wrap32 (x : Int) : Int := (x + 2 ^ 31) % 2 ^ 32 - 2 ^ 31

/-- The page default of `ListBooks`: `page <= 0` is treated as 1. -/
def effPage (page : Int) : Int := if page ≤ 0 then 1 else page

/-- The page-size defaults of `ListBooks`: `pageSize <= 0` is treated as 10,
then anything above 100 is clamped to 100. -/
def effPageSize (pageSize : Int) : Int :=
  let ps := if pageSize ≤ 0 then 10 else pageSize
  if ps > 100 then 100 else ps

/-- The collection loop of `ListBooks`: walk the enumeration keeping a running
`count`, and keep the records with `count >= start && count < end`. -/
def collectPage (start stop : Int) : List (String × Book) → Int → List Book
  | [], _ => []
  | (_, b) :: rest, count =>
      if start ≤ count ∧ count < stop then b :: collectPage start stop rest (count + 1)
      else collectPage start stop rest (count + 1)

/-- `ListBooks`: apply the page/pageSize defaults, compute the window
`[start, end)` in `int32` arithmetic, and collect the records whose
enumeration index falls inside it; `total` is the full record count. -/
def ListBooks (s : BookServer) (req : ListBooksRequest) :
    Except Status ListBooksResponse × BookServer :=
  let page := effPage req.page
  let pageSize := effPageSize req.pageSize
  let total : Int := s.books.length
  let start := wrap32 ((page - 1) * pageSize)
  let stop := wrap32 (start + pageSize)
  (.ok ⟨collectPage start stop s.books 0, total⟩, s)

/-- `pb.SearchBooksByPriceRequest` (`min_price`, `max_price` are `float`). -/
structure SearchBooksByPriceRequest where
  minPrice : ℚ
  maxPrice : ℚ

/-- `pb.SearchBooksByPriceResponse`. -/
structure SearchBooksByPriceResponse where
  books : List Book
deriving DecidableEq, Repr

/-- The collection loop of `SearchBooksByPrice`: keep the records with
`price >= minPrice && price <= maxPrice`. -/
def searchLoop (minPrice maxPrice : ℚ) : List (String × Book) → List Book
  | [] => []
  | (_, b) :: rest =>
      if minPrice ≤ b.price ∧ b.price ≤ maxPrice then b :: searchLoop minPrice maxPrice rest
      else searchLoop minPrice maxPrice rest

/-- `SearchBooksByPrice`: validate the range, then filter by closed interval. -/
def SearchBooksByPrice (s : BookServer) (req : SearchBooksByPriceRequest) :
    Except Status SearchBooksByPriceResponse × BookServer :=
  let minPrice := req.minPrice
  let maxPrice := req.maxPrice
  if minPrice < 0 then
    (.error ⟨.invalidArgument, "最低价格不能为负数"⟩, s)
  else if maxPrice < minPrice then
    (.error ⟨.invalidArgument, "最高价格不能小于最低价格"⟩, s)
  else
    (.ok ⟨searchLoop minPrice maxPrice s.books⟩, s)

/-- A client-visible operation, for stating whole-trace invariants. -/
inductive Op where
  | createOp (b : Book)
  | getOp (id : String)
  | updateOp (b : Book)
  | deleteOp (id : String)
  | listOp (page pageSize : Int)
  | searchOp (minPrice maxPrice : ℚ)

/-- The state transition a single operation performs. -/
def step (s : BookServer) : Op → BookServer
  | .createOp b => (CreateBook s ⟨b⟩).2
  | .getOp i => (GetBook s ⟨i⟩).2
  | .updateOp b => (UpdateBook s ⟨b⟩).2
  | .deleteOp i => (DeleteBook s ⟨i⟩).2
  | .listOp p ps => (ListBooks s ⟨p, ps⟩).2
  | .searchOp lo hi => (SearchBooksByPrice s ⟨lo, hi⟩).2

/-- Run a sequence of operations from a state. -/
def run (s : BookServer) : List Op → BookServer
  | [] => s
  | op :: rest => run (step s op) rest

/-- The ids handed out by the successful `CreateBook` calls of a run, in order. -/
def assignedIds (s : BookServer) : List Op → List String
  | [] => []
  | op :: rest =>
      (match op with
        | .createOp b =>
            match CreateBook s ⟨b⟩ with
            | (.ok resp, _) => [resp.id]
            | (.error _, _) => []
        | .getOp _ => []
        | .updateOp _ => []
        | .deleteOp _ => []
        | .listOp _ _ => []
        | .searchOp _ _ => []) ++ assignedIds (step s op) rest

/-- Store well-formedness: every entry's Book carries the key it is filed
under, and the keys are pairwise distinct (as they are in a Go map). -/
def StoreWF (s : BookServer) : Prop :=
  (∀ p ∈ s.books, p.2.id = p.1) ∧ (s.books.map (fun p => p.1)).Nodup

/-- The numeric value of a decimal digit character (inverse of `Nat.digitChar`
on digits). -/
def charVal (c : Char) : Nat := c.toNat - 48

/-- The number a list of decimal digit characters denotes, most significant
first. Used to invert `Nat.repr`. -/
def valChars (l : List Char) : Nat := l.foldl (fun acc c => acc * 10 + charVal c) 0

/-! ### Association-map lemmas -/

theorem mapLookup_insert_self (k : String) (v : Book) (m : List (String × Book)) :
    mapLookup k (mapInsert k v m) = some v := by
  induction m with
  | nil => simp [mapInsert, mapLookup]
  | cons p rest ih =>
      obtain ⟨k', v'⟩ := p
      by_cases h : k' = k
      · simp [mapInsert, h, mapLookup]
      · simp [mapInsert, h, mapLookup, ih]

theorem mapLookup_insert_other (k k' : String) (v : Book) (m : List (String × Book))
    (hk : k' ≠ k) : mapLookup k' (mapInsert k v m) = mapLookup k' m := by
  have hk' : ¬ k = k' := fun h => hk h.symm
  induction m with
  | nil => simp [mapInsert, mapLookup, hk']
  | cons p rest ih =>
      obtain ⟨k₀, v₀⟩ := p
      by_cases h : k₀ = k
      · subst h
        simp [mapInsert, mapLookup, hk']
      · simp [mapInsert, h, mapLookup, ih]

theorem mapLookup_remove_self (k : String) (m : List (String × Book)) :
    mapLookup k (mapRemove k m) = none := by
  induction m with
  | nil => rfl
  | cons p rest ih =>
      obtain ⟨k₀, v₀⟩ := p
      by_cases h : k₀ = k
      · simpa [mapRemove, h] using ih
      · simpa [mapRemove, List.filter_cons, h, mapLookup] using ih

theorem mapLookup_remove_other (k k' : String) (m : List (String × Book))
    (hk : k' ≠ k) : mapLookup k' (mapRemove k m) = mapLookup k' m := by
  induction m with
  | nil => rfl
  | cons p rest ih =>
      obtain ⟨k₀, v₀⟩ := p
      by_cases h : k₀ = k
      · subst h
        have hk'' : ¬ k₀ = k' := fun h => hk h.symm
        simpa [mapRemove, List.filter_cons, mapLookup, hk''] using ih
      · by_cases h' : k₀ = k'
        · simp [mapRemove, List.filter_cons, h, mapLookup, h', hk]
        · simpa [mapRemove, List.filter_cons, h, mapLookup, h'] using ih

/-! ### C10: read operations do not change the store -/

/-- C10: `GetBook`, `ListBooks` and `SearchBooksByPrice` return the store (map
and counter) exactly as it was, whether they succeed or fail. -/
theorem C10_reads_preserve_state (s : BookServer) (r1 : GetBookRequest)
    (r2 : ListBooksRequest) (r3 : SearchBooksByPriceRequest) :
    (GetBook s r1).2 = s ∧ (ListBooks s r2).2 = s ∧ (SearchBooksByPrice s r3).2 = s := by
  refine ⟨?_, rfl, ?_⟩
  · unfold GetBook
    split
    · rfl
    · split <;> rfl
  · simp only [SearchBooksByPrice]
    split
    · rfl
    · split <;> rfl

/-! ### Pagination defaults -/

theorem effPage_idem (p : Int) : effPage (effPage p) = effPage p := by
  simp only [effPage]
  split_ifs <;> omega

theorem effPageSize_bounds (ps : Int) : 0 < effPageSize ps ∧ effPageSize ps ≤ 100 := by
  simp only [effPageSize]
  split_ifs <;> omega

theorem effPageSize_idem (ps : Int) : effPageSize (effPageSize ps) = effPageSize ps := by
  simp only [effPageSize]
  split_ifs <;> omega

/-! ### C3: List always succeeds, reports the exact total, and normalizes
its parameters -/

/-- C3: for every store and every `page`/`pageSize` (including non-positive
and oversized values) `ListBooks` succeeds with `total` equal to the record
count; `page <= 0` acts as page 1, `pageSize <= 0` as 10, `pageSize > 100` as
100, and running with the normalized parameters yields the same response. -/
theorem C3_list_total (s : BookServer) (page pageSize : Int) :
    (∃ resp, ListBooks s ⟨page, pageSize⟩ = (.ok resp, s) ∧
      resp.total = s.books.length) ∧
    (page ≤ 0 → effPage page = 1) ∧
    (pageSize ≤ 0 → effPageSize pageSize = 10) ∧
    (pageSize > 100 → effPageSize pageSize = 100) ∧
    ListBooks s ⟨page, pageSize⟩ = ListBooks s ⟨effPage page, effPageSize pageSize⟩ := by
  refine ⟨⟨_, rfl, rfl⟩, ?_, ?_, ?_, ?_⟩
  · intro h; simp [effPage, h]
  · intro h; simp only [effPageSize]; split_ifs <;> omega
  · intro h; simp only [effPageSize]; split_ifs <;> omega
  · simp only [ListBooks, effPage_idem, effPageSize_idem]

/-- Witness for C3 at the degenerate parameters named by the specification. -/
theorem C3_list_total_witness :
    effPage 0 = 1 ∧ effPageSize 0 = 10 ∧ effPageSize 1000 = 100 ∧
    (∃ resp, ListBooks NewBookServer ⟨0, 0⟩ = (.ok resp, NewBookServer) ∧
      resp.total = 0) := by
  refine ⟨(C3_list_total NewBookServer 0 0).2.1 (by norm_num),
          (C3_list_total NewBookServer 0 0).2.2.1 (by norm_num),
          (C3_list_total NewBookServer 0 1000).2.2.2.1 (by norm_num), ?_⟩
  obtain ⟨resp, h1, h2⟩ := (C3_list_total NewBookServer 0 0).1
  exact ⟨resp, h1, by simpa [NewBookServer] using h2⟩

/-! ### C5: Create validation order and failure atomicity -/

/-- C5: `CreateBook` checks title, author, price in that order, reporting
`InvalidArgument` with the message of the first failing field; any failed
create returns the store untouched, so a later `ListBooks` sees the same
response (in particular the same total) as before. -/
theorem C5_create_validation (s : BookServer) (b : Book) :
    (b.title = "" →
      CreateBook s ⟨b⟩ = (.error ⟨.invalidArgument, "图书标题不能为空"⟩, s)) ∧
    (b.title ≠ "" → b.author = "" →
      CreateBook s ⟨b⟩ = (.error ⟨.invalidArgument, "作者不能为空"⟩, s)) ∧
    (b.title ≠ "" → b.author ≠ "" → b.price ≤ 0 →
      CreateBook s ⟨b⟩ = (.error ⟨.invalidArgument, "图书价格必须大于0"⟩, s)) ∧
    (∀ e s', CreateBook s ⟨b⟩ = (.error e, s') →
      s' = s ∧ ∀ p ps, ListBooks s' ⟨p, ps⟩ = ListBooks s ⟨p, ps⟩) := by
  refine ⟨?_, ?_, ?_, ?_⟩
  · intro h; simp [CreateBook, h]
  · intro h1 h2; simp [CreateBook, h1, h2]
  · intro h1 h2 h3; simp [CreateBook, h1, h2, h3]
  · intro e s' h
    suffices hs : s' = s by exact ⟨hs, by rw [hs]; intro p ps; rfl⟩
    by_cases h1 : b.title = ""
    · simp [CreateBook, h1] at h; exact h.2.symm
    · by_cases h2 : b.author = ""
      · simp [CreateBook, h1, h2] at h; exact h.2.symm
      · by_cases h3 : b.price ≤ 0
        · simp [CreateBook, h1, h2, h3] at h; exact h.2.symm
        · simp [CreateBook, h1, h2, h3, generateID] at h

/-- Witness for C5: the specification's scenario
`Create(title:"", author:"A", price:10)` on the empty store. -/
theorem C5_create_validation_witness :
    CreateBook NewBookServer ⟨⟨"", "", "A", 10, "", 0⟩⟩ =
      (.error ⟨.invalidArgument, "图书标题不能为空"⟩, NewBookServer) :=
  (C5_create_validation NewBookServer ⟨"", "", "A", 10, "", 0⟩).1 rfl

/-! ### C2: price-range search -/

theorem searchLoop_eq_filter (lo hi : ℚ) (m : List (String × Book)) :
    searchLoop lo hi m =
      (m.filter (fun p => decide (lo ≤ p.2.price ∧ p.2.price ≤ hi))).map (fun p => p.2) := by
  induction m with
  | nil => rfl
  | cons p rest ih =>
      obtain ⟨k, b⟩ := p
      by_cases h : lo ≤ b.price ∧ b.price ≤ hi
      · simp [searchLoop, h, List.filter_cons, ih]
      · simp [searchLoop, h, List.filter_cons, ih]

/-- C2: `SearchBooksByPrice` rejects `minPrice < 0` and `maxPrice < minPrice`
with `InvalidArgument`; otherwise it returns exactly the stored records whose
price lies in the closed interval: the result is the enumeration filtered by
`minPrice ≤ price ≤ maxPrice`, and a stored record appears in it iff its price
is in the interval (inclusive at both ends). -/
theorem C2_search_price_range (s : BookServer) (lo hi : ℚ) :
    (lo < 0 → SearchBooksByPrice s ⟨lo, hi⟩ =
      (.error ⟨.invalidArgument, "最低价格不能为负数"⟩, s)) ∧
    (0 ≤ lo → hi < lo → SearchBooksByPrice s ⟨lo, hi⟩ =
      (.error ⟨.invalidArgument, "最高价格不能小于最低价格"⟩, s)) ∧
    (0 ≤ lo → lo ≤ hi →
      ∃ resp, SearchBooksByPrice s ⟨lo, hi⟩ = (.ok resp, s) ∧
        resp.books =
          (s.books.filter (fun p => decide (lo ≤ p.2.price ∧ p.2.price ≤ hi))).map
            (fun p => p.2) ∧
        ∀ b : Book, (∃ k, (k, b) ∈ s.books) →
          (b ∈ resp.books ↔ lo ≤ b.price ∧ b.price ≤ hi)) := by
  refine ⟨?_, ?_, ?_⟩
  · intro h; simp [SearchBooksByPrice, h]
  · intro h1 h2; simp [SearchBooksByPrice, not_lt.mpr h1, h2]
  · intro h1 h2
    have hlo : ¬ lo < 0 := not_lt.mpr h1
    have hhi : ¬ hi < lo := not_lt.mpr h2
    refine ⟨⟨searchLoop lo hi s.books⟩, by simp [SearchBooksByPrice, hlo, hhi],
            searchLoop_eq_filter lo hi s.books, ?_⟩
    intro b hb
    show b ∈ searchLoop lo hi s.books ↔ _
    rw [searchLoop_eq_filter]
    constructor
    · intro hmem
      simp only [List.mem_map, List.mem_filter] at hmem
      obtain ⟨p, ⟨hp, hcond⟩, hpb⟩ := hmem
      rw [← hpb]
      simpa using hcond
    · intro hcond
      obtain ⟨k, hk⟩ := hb
      simp only [List.mem_map, List.mem_filter]
      exact ⟨(k, b), ⟨hk, by simpa using hcond⟩, rfl⟩

/-- Witness for C2: the specification's scenario — books priced 19.99, 39.99,
59.99; searching [30, 50] returns exactly the 39.99 book. -/
theorem C2_search_price_range_witness :
    ∃ resp,
      SearchBooksByPrice
        ⟨[("book-1", ⟨"book-1", "便宜图书", "作者1", 1999/100, "", 2023⟩),
          ("book-2", ⟨"book-2", "中等图书", "作者2", 3999/100, "", 2024⟩),
          ("book-3", ⟨"book-3", "昂贵图书", "作者3", 5999/100, "", 2025⟩)], 3⟩
        ⟨30, 50⟩ =
      (.ok resp,
        ⟨[("book-1", ⟨"book-1", "便宜图书", "作者1", 1999/100, "", 2023⟩),
          ("book-2", ⟨"book-2", "中等图书", "作者2", 3999/100, "", 2024⟩),
          ("book-3", ⟨"book-3", "昂贵图书", "作者3", 5999/100, "", 2025⟩)], 3⟩) ∧
      resp.books = [⟨"book-2", "中等图书", "作者2", 3999/100, "", 2024⟩] := by
  obtain ⟨resp, h1, h2, _⟩ :=
    (C2_search_price_range
      ⟨[("book-1", ⟨"book-1", "便宜图书", "作者1", 1999/100, "", 2023⟩),
        ("book-2", ⟨"book-2", "中等图书", "作者2", 3999/100, "", 2024⟩),
        ("book-3", ⟨"book-3", "昂贵图书", "作者3", 5999/100, "", 2025⟩)], 3⟩
      30 50).2.2 (by norm_num) (by norm_num)
  exact ⟨resp, h1, by rw [h2]; norm_num [List.filter_cons]⟩

/-! ### C7: Create then Get round trip -/

theorem book_prefix_ne_empty (t : String) : "book-" ++ t ≠ "" := by
  intro h
  have hd := congrArg String.data h
  simp only [String.data_append] at hd
  exact absurd (List.append_eq_nil.mp hd).1 (by decide)

/-- C7: creating any valid book (non-empty title and author, positive price)
succeeds, and `GetBook` on the returned id yields exactly the submitted record
with its id replaced by the assigned one. -/
theorem C7_create_get_round_trip (s : BookServer) (b : Book)
    (ht : b.title ≠ "") (ha : b.author ≠ "") (hp : 0 < b.price) :
    ∃ id s', CreateBook s ⟨b⟩ = (.ok ⟨id, "图书创建成功"⟩, s') ∧
      GetBook s' ⟨id⟩ = (.ok ⟨{ b with id := id }⟩, s') := by
  have hp' : ¬ b.price ≤ 0 := not_le.mpr hp
  refine ⟨"book-" ++ Nat.repr (s.idCounter + 1),
    ⟨mapInsert ("book-" ++ Nat.repr (s.idCounter + 1))
      { b with id := "book-" ++ Nat.repr (s.idCounter + 1) } s.books, s.idCounter + 1⟩,
    ?_, ?_⟩
  · simp [CreateBook, ht, ha, hp', generateID]
  · have h1 : ("book-" ++ Nat.repr (s.idCounter + 1) : String) ≠ "" :=
      book_prefix_ne_empty _
    simp [GetBook, h1, mapLookup_insert_self]

/-- Witness for C7 at a concrete book and the fresh store. -/
theorem C7_create_get_round_trip_witness :
    ∃ id s',
      CreateBook NewBookServer ⟨⟨"", "The Go Programming Language", "Alan Donovan", 4599/100, "guide", 2015⟩⟩ =
        (.ok ⟨id, "图书创建成功"⟩, s') ∧
      GetBook s' ⟨id⟩ =
        (.ok ⟨{ (⟨"", "The Go Programming Language", "Alan Donovan", 4599/100, "guide", 2015⟩ : Book) with id := id }⟩, s') :=
  C7_create_get_round_trip NewBookServer
    ⟨"", "The Go Programming Language", "Alan Donovan", 4599/100, "guide", 2015⟩
    (by decide) (by decide) (by norm_num)

/-! ### C6: Update replaces the stored record wholesale -/

/-- C6: after its validation (id, title, author, price — same rules as
Create plus the id check first), `UpdateBook` fails `NotFound` when the id is
absent and otherwise replaces the stored record with the incoming one in
full: `GetBook` afterwards returns exactly the submitted record, every field
(validated or not) overwriting the old value. -/
theorem C6_update_overwrite (s : BookServer) (b : Book)
    (hid : b.id ≠ "") (ht : b.title ≠ "") (ha : b.author ≠ "") (hp : 0 < b.price) :
    (mapLookup b.id s.books = none →
      UpdateBook s ⟨b⟩ = (.error ⟨.notFound, "图书不存在，ID: " ++ b.id⟩, s)) ∧
    (∀ old, mapLookup b.id s.books = some old →
      ∃ s', UpdateBook s ⟨b⟩ = (.ok ⟨"图书更新成功"⟩, s') ∧
        s'.books = mapInsert b.id b s.books ∧ s'.idCounter = s.idCounter ∧
        GetBook s' ⟨b.id⟩ = (.ok ⟨b⟩, s')) := by
  have hp' : ¬ b.price ≤ 0 := not_le.mpr hp
  constructor
  · intro hnone
    simp [UpdateBook, hid, ht, ha, hp', hnone]
  · intro old hsome
    refine ⟨⟨mapInsert b.id b s.books, s.idCounter⟩, ?_, rfl, rfl, ?_⟩
    · simp [UpdateBook, hid, ht, ha, hp', hsome]
    · simp [GetBook, hid, mapLookup_insert_self]

/-- Witness for C6: update a stored book changing every field, including
resetting the unvalidated description and publishYear to zero values. -/
theorem C6_update_overwrite_witness :
    ∃ s',
      UpdateBook ⟨[("book-1", ⟨"book-1", "原始图书", "原始作者", 2999/100, "原始描述", 2023⟩)], 1⟩
          ⟨⟨"book-1", "更新后的图书", "更新后的作者", 3999/100, "", 0⟩⟩ =
        (.ok ⟨"图书更新成功"⟩, s') ∧
      s'.books = mapInsert "book-1" ⟨"book-1", "更新后的图书", "更新后的作者", 3999/100, "", 0⟩
          [("book-1", ⟨"book-1", "原始图书", "原始作者", 2999/100, "原始描述", 2023⟩)] ∧
      s'.idCounter = 1 ∧
      GetBook s' ⟨"book-1"⟩ =
        (.ok ⟨⟨"book-1", "更新后的图书", "更新后的作者", 3999/100, "", 0⟩⟩, s') :=
  (C6_update_overwrite
      ⟨[("book-1", ⟨"book-1", "原始图书", "原始作者", 2999/100, "原始描述", 2023⟩)], 1⟩
      ⟨"book-1", "更新后的图书", "更新后的作者", 3999/100, "", 0⟩
      (by decide) (by decide) (by decide) (by norm_num)).2
    ⟨"book-1", "原始图书", "原始作者", 2999/100, "原始描述", 2023⟩ (by simp [mapLookup])

/-! ### C8: Delete removes exactly the entry; a second delete fails -/

/-- C8: deleting a present, non-empty id succeeds and removes exactly that
entry (every other key still looks up to the same record); afterwards
`GetBook` of the id fails `NotFound`, and a second `DeleteBook` of the same id
also fails `NotFound`. -/
theorem C8_delete_then_get (s : BookServer) (id : String) (b : Book)
    (hid : id ≠ "") (hb : mapLookup id s.books = some b) :
    ∃ s', DeleteBook s ⟨id⟩ = (.ok ⟨"图书删除成功"⟩, s') ∧
      s'.books = mapRemove id s.books ∧ s'.idCounter = s.idCounter ∧
      (∀ k, k ≠ id → mapLookup k s'.books = mapLookup k s.books) ∧
      GetBook s' ⟨id⟩ = (.error ⟨.notFound, "图书不存在，ID: " ++ id⟩, s') ∧
      DeleteBook s' ⟨id⟩ = (.error ⟨.notFound, "图书不存在，ID: " ++ id⟩, s') := by
  refine ⟨⟨mapRemove id s.books, s.idCounter⟩, ?_, rfl, rfl, ?_, ?_, ?_⟩
  · simp [DeleteBook, hid, hb]
  · intro k hk
    exact mapLookup_remove_other id k s.books hk
  · simp [GetBook, hid, mapLookup_remove_self]
  · simp [DeleteBook, hid, mapLookup_remove_self]

/-- Witness for C8 at a concrete one-book store. -/
theorem C8_delete_then_get_witness :
    ∃ s',
      DeleteBook ⟨[("book-1", ⟨"book-1", "要删除的图书", "作者", 2999/100, "描述", 2023⟩)], 1⟩
          ⟨"book-1"⟩ = (.ok ⟨"图书删除成功"⟩, s') ∧
      s'.books = mapRemove "book-1"
          [("book-1", ⟨"book-1", "要删除的图书", "作者", 2999/100, "描述", 2023⟩)] ∧
      s'.idCounter = 1 ∧
      (∀ k, k ≠ "book-1" → mapLookup k s'.books =
        mapLookup k [("book-1", ⟨"book-1", "要删除的图书", "作者", 2999/100, "描述", 2023⟩)]) ∧
      GetBook s' ⟨"book-1"⟩ = (.error ⟨.notFound, "图书不存在，ID: book-1"⟩, s') ∧
      DeleteBook s' ⟨"book-1"⟩ = (.error ⟨.notFound, "图书不存在，ID: book-1"⟩, s') :=
  C8_delete_then_get
    ⟨[("book-1", ⟨"book-1", "要删除的图书", "作者", 2999/100, "描述", 2023⟩)], 1⟩
    "book-1" ⟨"book-1", "要删除的图书", "作者", 2999/100, "描述", 2023⟩
    (by decide) (by simp [mapLookup])

/-! ### Per-operation state characterizations -/

theorem GetBook_snd (s : BookServer) (r : GetBookRequest) : (GetBook s r).2 = s := by
  unfold GetBook
  split
  · rfl
  · split <;> rfl

theorem SearchBooksByPrice_snd (s : BookServer) (r : SearchBooksByPriceRequest) :
    (SearchBooksByPrice s r).2 = s := by
  simp only [SearchBooksByPrice]
  split
  · rfl
  · split <;> rfl

theorem CreateBook_snd (s : BookServer) (b : Book) :
    (CreateBook s ⟨b⟩).2 = s ∨
      ((CreateBook s ⟨b⟩).1 =
          .ok ⟨"book-" ++ Nat.repr (s.idCounter + 1), "图书创建成功"⟩ ∧
        (CreateBook s ⟨b⟩).2 =
          ⟨mapInsert ("book-" ++ Nat.repr (s.idCounter + 1))
            { b with id := "book-" ++ Nat.repr (s.idCounter + 1) } s.books,
            s.idCounter + 1⟩) := by
  by_cases h1 : b.title = ""
  · left; simp [CreateBook, h1]
  · by_cases h2 : b.author = ""
    · left; simp [CreateBook, h1, h2]
    · by_cases h3 : b.price ≤ 0
      · left; simp [CreateBook, h1, h2, h3]
      · right; simp [CreateBook, h1, h2, h3, generateID]

theorem UpdateBook_snd (s : BookServer) (b : Book) :
    (UpdateBook s ⟨b⟩).2 = s ∨
      (UpdateBook s ⟨b⟩).2 = ⟨mapInsert b.id b s.books, s.idCounter⟩ := by
  by_cases h1 : b.id = ""
  · left; simp [UpdateBook, h1]
  · by_cases h2 : b.title = ""
    · left; simp [UpdateBook, h1, h2]
    · by_cases h3 : b.author = ""
      · left; simp [UpdateBook, h1, h2, h3]
      · by_cases h4 : b.price ≤ 0
        · left; simp [UpdateBook, h1, h2, h3, h4]
        · cases hl : mapLookup b.id s.books with
          | none => left; simp [UpdateBook, h1, h2, h3, h4, hl]
          | some old => right; simp [UpdateBook, h1, h2, h3, h4, hl]

theorem DeleteBook_snd (s : BookServer) (i : String) :
    (DeleteBook s ⟨i⟩).2 = s ∨
      (DeleteBook s ⟨i⟩).2 = ⟨mapRemove i s.books, s.idCounter⟩ := by
  by_cases h1 : i = ""
  · left; simp [DeleteBook, h1]
  · cases hl : mapLookup i s.books with
    | none => left; simp [DeleteBook, h1, hl]
    | some old => right; simp [DeleteBook, h1, hl]

/-! ### C9: every entry's Book carries its key; all operations preserve it -/

theorem mem_mapInsert (k : String) (v : Book) (m : List (String × Book))
    (p : String × Book) (hp : p ∈ mapInsert k v m) : p = (k, v) ∨ p ∈ m := by
  induction m with
  | nil => simpa [mapInsert] using hp
  | cons q rest ih =>
      obtain ⟨k₀, v₀⟩ := q
      by_cases h : k₀ = k
      · rw [mapInsert, if_pos h] at hp
        rcases List.mem_cons.mp hp with h1 | h1
        · exact .inl h1
        · exact .inr (List.mem_cons_of_mem _ h1)
      · rw [mapInsert, if_neg h] at hp
        rcases List.mem_cons.mp hp with h1 | h1
        · exact .inr (h1 ▸ List.mem_cons_self _ _)
        · rcases ih h1 with h2 | h2
          · exact .inl h2
          · exact .inr (List.mem_cons_of_mem _ h2)

theorem keys_mapInsert_mem (k x : String) (v : Book) (m : List (String × Book))
    (hx : x ∈ (mapInsert k v m).map (fun p => p.1)) :
    x = k ∨ x ∈ m.map (fun p => p.1) := by
  rcases List.mem_map.mp hx with ⟨p, hp, hpx⟩
  rcases mem_mapInsert k v m p hp with h | h
  · left; rw [← hpx, h]
  · right; exact List.mem_map.mpr ⟨p, h, hpx⟩

theorem keys_mapInsert_nodup (k : String) (v : Book) (m : List (String × Book))
    (h : (m.map (fun p => p.1)).Nodup) :
    ((mapInsert k v m).map (fun p => p.1)).Nodup := by
  induction m with
  | nil => simp [mapInsert]
  | cons q rest ih =>
      obtain ⟨k₀, v₀⟩ := q
      simp only [List.map_cons, List.nodup_cons] at h
      by_cases hk : k₀ = k
      · rw [mapInsert, if_pos hk]
        simp only [List.map_cons, List.nodup_cons]
        exact ⟨hk ▸ h.1, h.2⟩
      · rw [mapInsert, if_neg hk]
        simp only [List.map_cons, List.nodup_cons]
        refine ⟨?_, ih h.2⟩
        intro hx
        rcases keys_mapInsert_mem k k₀ v rest hx with h1 | h1
        · exact hk h1
        · exact h.1 h1

theorem StoreWF_new : StoreWF NewBookServer := by
  constructor <;> simp [NewBookServer, StoreWF]

theorem StoreWF_step (s : BookServer) (op : Op) (h : StoreWF s) : StoreWF (step s op) := by
  obtain ⟨hmem, hkeys⟩ := h
  cases op with
  | getOp i =>
      rw [step, GetBook_snd]; exact ⟨hmem, hkeys⟩
  | listOp p ps =>
      exact ⟨hmem, hkeys⟩
  | searchOp lo hi =>
      rw [step, SearchBooksByPrice_snd]; exact ⟨hmem, hkeys⟩
  | createOp b =>
      rcases CreateBook_snd s b with hc | ⟨_, hc⟩
      · rw [step, hc]; exact ⟨hmem, hkeys⟩
      · rw [step, hc]
        constructor
        · intro p hp
          rcases mem_mapInsert _ _ _ p hp with h1 | h1
          · rw [h1]
          · exact hmem p h1
        · exact keys_mapInsert_nodup _ _ _ hkeys
  | updateOp b =>
      rcases UpdateBook_snd s b with hc | hc
      · rw [step, hc]; exact ⟨hmem, hkeys⟩
      · rw [step, hc]
        constructor
        · intro p hp
          rcases mem_mapInsert _ _ _ p hp with h1 | h1
          · rw [h1]
          · exact hmem p h1
        · exact keys_mapInsert_nodup _ _ _ hkeys
  | deleteOp i =>
      rcases DeleteBook_snd s i with hc | hc
      · rw [step, hc]; exact ⟨hmem, hkeys⟩
      · rw [step, hc]
        constructor
        · intro p hp
          exact hmem p (List.mem_of_mem_filter hp)
        · have hsub : (mapRemove i s.books).Sublist s.books := List.filter_sublist s.books
          exact hkeys.sublist (hsub.map (fun p => p.1))

theorem StoreWF_run (s : BookServer) (ops : List Op) (h : StoreWF s) :
    StoreWF (run s ops) := by
  induction ops generalizing s with
  | nil => exact h
  | cons op rest ih => exact ih _ (StoreWF_step s op h)

/-- C9: in every state reachable from the fresh server by any sequence of
operations, every key of the map holds exactly one Book whose `id` field
equals that key (keys are unique, no mismatched entries), and every single
operation preserves this well-formedness. -/
theorem C9_id_key_invariant :
    (∀ (s : BookServer) (op : Op), StoreWF s → StoreWF (step s op)) ∧
    (∀ ops : List Op, StoreWF (run NewBookServer ops)) :=
  ⟨StoreWF_step, fun ops => StoreWF_run NewBookServer ops StoreWF_new⟩

/-- Witness for C9: the preservation part applied to a concrete create on the
fresh (trivially well-formed) store. -/
theorem C9_id_key_invariant_witness :
    StoreWF (step NewBookServer (Op.createOp ⟨"", "T", "A", 10, "", 2020⟩)) :=
  C9_id_key_invariant.1 NewBookServer (Op.createOp ⟨"", "T", "A", 10, "", 2020⟩)
    ⟨by simp [NewBookServer], by simp [NewBookServer]⟩

/-! ### C4: the pagination window in 32-bit arithmetic -/

theorem mem_enumFrom_fst_bounds {α : Type} {l : List α} {n : Nat} {q : Nat × α}
    (hq : q ∈ l.enumFrom n) : n ≤ q.1 ∧ q.1 < n + l.length := by
  induction l generalizing n with
  | nil => simp at hq
  | cons a rest ih =>
      rw [List.enumFrom_cons] at hq
      rcases List.mem_cons.mp hq with h | h
      · rw [h]; simp
      · have := ih h
        simp only [List.length_cons]
        omega

theorem collectPage_eq_enumFrom (st en : Int) (l : List (String × Book)) (n : Nat) :
    collectPage st en l (n : Int) =
      ((l.enumFrom n).filter (fun q => decide (st ≤ (q.1 : Int) ∧ (q.1 : Int) < en))).map
        (fun q => q.2.2) := by
  induction l generalizing n with
  | nil => rfl
  | cons p rest ih =>
      obtain ⟨k, b⟩ := p
      have ih' := ih (n + 1)
      push_cast at ih'
      by_cases h : st ≤ (n : Int) ∧ (n : Int) < en
      · simp [collectPage, h, List.filter_cons, ih']
      · simp [collectPage, h, List.filter_cons, ih']

/-- C4: `ListBooks` computes `start = (page'-1) * pageSize'` and
`end = start + pageSize'` (primes denoting the defaulted parameters) as a Go
`int32` would, wrap-around included, and returns exactly the records whose
0-based enumeration index lies in `[start, end)`; whenever `start` exceeds the
record count the page is empty while `total` is still the full count. -/
theorem C4_pagination_window (s : BookServer) (page pageSize : Int) :
    ∃ resp, ListBooks s ⟨page, pageSize⟩ = (.ok resp, s) ∧
      resp.total = s.books.length ∧
      resp.books =
        ((s.books.enum.filter (fun q =>
            decide (wrap32 ((effPage page - 1) * effPageSize pageSize) ≤ (q.1 : Int) ∧
              (q.1 : Int) <
                wrap32 (wrap32 ((effPage page - 1) * effPageSize pageSize) +
                  effPageSize pageSize)))).map (fun q => q.2.2)) ∧
      ((s.books.length : Int) < wrap32 ((effPage page - 1) * effPageSize pageSize) →
        resp.books = []) := by
  refine ⟨⟨collectPage (wrap32 ((effPage page - 1) * effPageSize pageSize))
      (wrap32 (wrap32 ((effPage page - 1) * effPageSize pageSize) + effPageSize pageSize))
      s.books 0, s.books.length⟩, rfl, rfl, ?_, ?_⟩
  · have h := collectPage_eq_enumFrom
      (wrap32 ((effPage page - 1) * effPageSize pageSize))
      (wrap32 (wrap32 ((effPage page - 1) * effPageSize pageSize) + effPageSize pageSize))
      s.books 0
    simpa [List.enum] using h
  · intro hlt
    show collectPage _ _ s.books 0 = []
    have h := collectPage_eq_enumFrom
      (wrap32 ((effPage page - 1) * effPageSize pageSize))
      (wrap32 (wrap32 ((effPage page - 1) * effPageSize pageSize) + effPageSize pageSize))
      s.books 0
    rw [show ((0 : Int) = ((0 : Nat) : Int)) by simp, h]
    rw [List.filter_eq_nil_iff.mpr, List.map_nil]
    intro q hq
    have hb := mem_enumFrom_fst_bounds hq
    simp only [decide_eq_true_eq, not_and]
    intro hst
    omega

/-- Witness for C4: the specification's scenario — with three records,
`List(2, 10)` has `start = 10` beyond the total of 3, so the page is empty
and `total` is still 3. -/
theorem C4_pagination_window_witness :
    ∃ resp,
      ListBooks ⟨[("book-1", ⟨"book-1", "图书1", "作者1", 1, "", 2023⟩),
                  ("book-2", ⟨"book-2", "图书2", "作者2", 2, "", 2024⟩),
                  ("book-3", ⟨"book-3", "图书3", "作者3", 3, "", 2025⟩)], 3⟩ ⟨2, 10⟩ =
        (.ok resp,
          ⟨[("book-1", ⟨"book-1", "图书1", "作者1", 1, "", 2023⟩),
            ("book-2", ⟨"book-2", "图书2", "作者2", 2, "", 2024⟩),
            ("book-3", ⟨"book-3", "图书3", "作者3", 3, "", 2025⟩)], 3⟩) ∧
      resp.total = 3 ∧ resp.books = [] := by
  obtain ⟨resp, h1, h2, _, h4⟩ :=
    C4_pagination_window
      ⟨[("book-1", ⟨"book-1", "图书1", "作者1", 1, "", 2023⟩),
        ("book-2", ⟨"book-2", "图书2", "作者2", 2, "", 2024⟩),
        ("book-3", ⟨"book-3", "图书3", "作者3", 3, "", 2025⟩)], 3⟩ 2 10
  refine ⟨resp, h1, by simpa using h2, h4 ?_⟩
  norm_num [effPage, effPageSize, wrap32]

/-! ### C1: id generation — format, failure atomicity, uniqueness -/

theorem CreateBook_cases (s : BookServer) (b : Book) :
    (∃ e, CreateBook s ⟨b⟩ = (.error e, s)) ∨
      CreateBook s ⟨b⟩ =
        (.ok ⟨"book-" ++ Nat.repr (s.idCounter + 1), "图书创建成功"⟩,
          ⟨mapInsert ("book-" ++ Nat.repr (s.idCounter + 1))
            { b with id := "book-" ++ Nat.repr (s.idCounter + 1) } s.books,
            s.idCounter + 1⟩) := by
  by_cases h1 : b.title = ""
  · exact .inl ⟨⟨.invalidArgument, "图书标题不能为空"⟩, by simp [CreateBook, h1]⟩
  · by_cases h2 : b.author = ""
    · exact .inl ⟨⟨.invalidArgument, "作者不能为空"⟩, by simp [CreateBook, h1, h2]⟩
    · by_cases h3 : b.price ≤ 0
      · exact .inl ⟨⟨.invalidArgument, "图书价格必须大于0"⟩, by simp [CreateBook, h1, h2, h3]⟩
      · exact .inr (by simp [CreateBook, h1, h2, h3, generateID])

theorem charVal_digitChar : ∀ d, d < 10 → charVal (Nat.digitChar d) = d := by decide

theorem toDigitsCore_accum (b : Nat) :
    ∀ (fuel n : Nat) (ds : List Char),
      Nat.toDigitsCore b fuel n ds = Nat.toDigitsCore b fuel n [] ++ ds := by
  intro fuel
  induction fuel with
  | zero => intro n ds; rfl
  | succ fuel ih =>
      intro n ds
      simp only [Nat.toDigitsCore]
      by_cases h : n / b = 0
      · simp [h]
      · simp only [if_neg h]
        rw [ih (n / b) (Nat.digitChar (n % b) :: ds), ih (n / b) [Nat.digitChar (n % b)]]
        simp

theorem valChars_append_digit (l : List Char) (c : Char) :
    valChars (l ++ [c]) = valChars l * 10 + charVal c := by
  simp [valChars, List.foldl_append]

theorem valChars_toDigitsCore (fuel : Nat) :
    ∀ n, n < fuel → valChars (Nat.toDigitsCore 10 fuel n []) = n := by
  induction fuel with
  | zero => intro n h; omega
  | succ fuel ih =>
      intro n h
      simp only [Nat.toDigitsCore]
      by_cases h0 : n / 10 = 0
      · simp only [if_pos h0]
        have h10 : n % 10 < 10 := by omega
        have hv : valChars [Nat.digitChar (n % 10)] = charVal (Nat.digitChar (n % 10)) := by
          simp [valChars]
        rw [hv, charVal_digitChar (n % 10) h10]
        omega
      · simp only [if_neg h0]
        rw [toDigitsCore_accum, valChars_append_digit]
        have hdiv : n / 10 < fuel := by omega
        rw [ih (n / 10) hdiv, charVal_digitChar (n % 10) (by omega)]
        omega

theorem Nat_repr_injective (m n : Nat) (h : Nat.repr m = Nat.repr n) : m = n := by
  have hd : Nat.toDigits 10 m = Nat.toDigits 10 n := congrArg String.data h
  have hm := valChars_toDigitsCore (m + 1) m (by omega)
  have hn := valChars_toDigitsCore (n + 1) n (by omega)
  rw [← hm, ← hn]
  rw [show Nat.toDigitsCore 10 (m + 1) m [] = Nat.toDigits 10 m from rfl,
      show Nat.toDigitsCore 10 (n + 1) n [] = Nat.toDigits 10 n from rfl, hd]

theorem bookId_injective (a b : Nat)
    (h : "book-" ++ Nat.repr a = "book-" ++ Nat.repr b) : a = b := by
  apply Nat_repr_injective
  have hdata := congrArg String.data h
  simp only [String.data_append] at hdata
  exact String.ext (List.append_cancel_left hdata)

theorem step_idCounter_ge (s : BookServer) (op : Op) :
    s.idCounter ≤ (step s op).idCounter := by
  cases op with
  | getOp i => rw [step, GetBook_snd]
  | listOp p ps => exact le_refl _
  | searchOp lo hi => rw [step, SearchBooksByPrice_snd]
  | createOp b =>
      rcases CreateBook_snd s b with hc | ⟨_, hc⟩
      · rw [step, hc]
      · rw [step, hc]; exact Nat.le_succ _
  | updateOp b =>
      rcases UpdateBook_snd s b with hc | hc <;> rw [step, hc]
  | deleteOp i =>
      rcases DeleteBook_snd s i with hc | hc <;> rw [step, hc]

theorem assignedIds_shape (s : BookServer) (ops : List Op) (i : String)
    (hi : i ∈ assignedIds s ops) :
    ∃ k : Nat, s.idCounter < k ∧ i = "book-" ++ Nat.repr k := by
  induction ops generalizing s with
  | nil => simp [assignedIds] at hi
  | cons op rest ih =>
      have htail : i ∈ assignedIds (step s op) rest →
          ∃ k : Nat, s.idCounter < k ∧ i = "book-" ++ Nat.repr k := by
        intro h
        obtain ⟨k, hk, hik⟩ := ih (step s op) h
        exact ⟨k, lt_of_le_of_lt (step_idCounter_ge s op) hk, hik⟩
      cases op with
      | createOp b =>
          rcases CreateBook_cases s b with ⟨e, hc⟩ | hc
          · rw [assignedIds, hc] at hi
            simp only [List.nil_append] at hi
            exact htail hi
          · rw [assignedIds, hc] at hi
            simp only [List.singleton_append, List.mem_cons] at hi
            rcases hi with h | h
            · exact ⟨s.idCounter + 1, Nat.lt_succ_self _, h⟩
            · exact htail h
      | getOp i₀ =>
          rw [assignedIds] at hi
          exact htail (by simpa using hi)
      | updateOp b =>
          rw [assignedIds] at hi
          exact htail (by simpa using hi)
      | deleteOp i₀ =>
          rw [assignedIds] at hi
          exact htail (by simpa using hi)
      | listOp p ps =>
          rw [assignedIds] at hi
          exact htail (by simpa using hi)
      | searchOp lo hi₀ =>
          rw [assignedIds] at hi
          exact htail (by simpa using hi)

theorem assignedIds_nodup (s : BookServer) (ops : List Op) :
    (assignedIds s ops).Nodup := by
  induction ops generalizing s with
  | nil => simp [assignedIds]
  | cons op rest ih =>
      cases op with
      | createOp b =>
          rcases CreateBook_cases s b with ⟨e, hc⟩ | hc
          · rw [assignedIds, hc]
            simpa using ih (step s (.createOp b))
          · rw [assignedIds, hc]
            show (("book-" ++ Nat.repr (s.idCounter + 1)) ::
              assignedIds (step s (Op.createOp b)) rest).Nodup
            rw [List.nodup_cons]
            refine ⟨?_, ih (step s (.createOp b))⟩
            intro hmem
            obtain ⟨k, hk, hik⟩ := assignedIds_shape (step s (.createOp b)) rest _ hmem
            have hstep : (step s (Op.createOp b)).idCounter = s.idCounter + 1 := by
              rw [step, hc]
            rw [hstep] at hk
            have := bookId_injective _ _ hik
            omega
      | getOp i₀ => rw [assignedIds]; simpa using ih (step s (.getOp i₀))
      | updateOp b => rw [assignedIds]; simpa using ih (step s (.updateOp b))
      | deleteOp i₀ => rw [assignedIds]; simpa using ih (step s (.deleteOp i₀))
      | listOp p ps => rw [assignedIds]; simpa using ih (step s (.listOp p ps))
      | searchOp lo hi₀ => rw [assignedIds]; simpa using ih (step s (.searchOp lo hi₀))

theorem run_idCounter_eq (s : BookServer) (ops : List Op) :
    (run s ops).idCounter = s.idCounter + (assignedIds s ops).length := by
  induction ops generalizing s with
  | nil => simp [run, assignedIds]
  | cons op rest ih =>
      rw [run, ih (step s op)]
      cases op with
      | createOp b =>
          rcases CreateBook_cases s b with ⟨e, hc⟩ | hc
          · have h1 : (step s (Op.createOp b)).idCounter = s.idCounter := by
              rw [step, hc]
            rw [assignedIds, hc, h1]
            simp
          · have h1 : (step s (Op.createOp b)).idCounter = s.idCounter + 1 := by
              rw [step, hc]
            rw [assignedIds, hc, h1]
            show s.idCounter + 1 + (assignedIds (step s (Op.createOp b)) rest).length =
              s.idCounter + (("book-" ++ Nat.repr (s.idCounter + 1)) ::
                assignedIds (step s (Op.createOp b)) rest).length
            rw [List.length_cons]
            omega
      | getOp i₀ =>
          have h1 : (step s (Op.getOp i₀)).idCounter = s.idCounter := by
            rw [step, GetBook_snd]
          rw [assignedIds, h1]; simp
      | listOp p ps =>
          rw [assignedIds]; simp [step, ListBooks]
      | searchOp lo hi₀ =>
          have h1 : (step s (Op.searchOp lo hi₀)).idCounter = s.idCounter := by
            rw [step, SearchBooksByPrice_snd]
          rw [assignedIds, h1]; simp
      | updateOp b =>
          have h1 : (step s (Op.updateOp b)).idCounter = s.idCounter := by
            rcases UpdateBook_snd s b with hc | hc <;> rw [step, hc]
          rw [assignedIds, h1]; simp
      | deleteOp i₀ =>
          have h1 : (step s (Op.deleteOp i₀)).idCounter = s.idCounter := by
            rcases DeleteBook_snd s i₀ with hc | hc <;> rw [step, hc]
          rw [assignedIds, h1]; simp

/-- C1: every successful `CreateBook` returns the id
`"book-" + (counter after increment)` and advances the counter by exactly one;
a failed create leaves the store (counter included) untouched; over any run
from the fresh server the counter equals the number of ids handed out (so the
first successful create gets N = 1, regardless of earlier failed attempts);
and the assigned ids of any run are pairwise distinct — an id is never reused,
even after its record is deleted. -/
theorem C1_unique_id_assignment :
    (∀ (s : BookServer) (b : Book) (resp : CreateBookResponse) (s' : BookServer),
        CreateBook s ⟨b⟩ = (.ok resp, s') →
        resp.id = "book-" ++ Nat.repr (s.idCounter + 1) ∧
          s'.idCounter = s.idCounter + 1) ∧
    (∀ (s : BookServer) (b : Book) (e : Status) (s' : BookServer),
        CreateBook s ⟨b⟩ = (.error e, s') → s' = s) ∧
    (∀ ops : List Op,
        (run NewBookServer ops).idCounter = (assignedIds NewBookServer ops).length) ∧
    (∀ ops : List Op, (assignedIds NewBookServer ops).Nodup) := by
  refine ⟨?_, ?_, ?_, fun ops => assignedIds_nodup NewBookServer ops⟩
  · intro s b resp s' h
    rcases CreateBook_cases s b with ⟨e₀, hc⟩ | hc
    · rw [hc] at h
      exact absurd h (by simp)
    · rw [hc] at h
      simp only [Prod.mk.injEq, Except.ok.injEq] at h
      rw [← h.1, ← h.2]
      exact ⟨rfl, rfl⟩
  · intro s b e s' h
    rcases CreateBook_cases s b with ⟨e₀, hc⟩ | hc
    · rw [hc] at h
      simp only [Prod.mk.injEq, Except.error.injEq] at h
      exact h.2.symm
    · rw [hc] at h
      exact absurd h (by simp)
  · intro ops
    simpa [NewBookServer] using run_idCounter_eq NewBookServer ops

/-- Witness for C1: create a record, delete it, create another — the assigned
ids are "book-1" then "book-2" (no reuse after the delete), the counter ends
at 2, and a concrete successful create is checked against the format part. -/
theorem C1_unique_id_assignment_witness :
    assignedIds NewBookServer
      [Op.createOp ⟨"", "A", "a", 10, "", 0⟩, Op.deleteOp "book-1",
        Op.createOp ⟨"", "B", "b", 20, "", 0⟩] = ["book-1", "book-2"] ∧
    (assignedIds NewBookServer
      [Op.createOp ⟨"", "A", "a", 10, "", 0⟩, Op.deleteOp "book-1",
        Op.createOp ⟨"", "B", "b", 20, "", 0⟩]).Nodup ∧
    (run NewBookServer
      [Op.createOp ⟨"", "A", "a", 10, "", 0⟩, Op.deleteOp "book-1",
        Op.createOp ⟨"", "B", "b", 20, "", 0⟩]).idCounter = 2 ∧
    (⟨"book-1", "图书创建成功"⟩ : CreateBookResponse).id =
      "book-" ++ Nat.repr (NewBookServer.idCounter + 1) := by
  have h := C1_unique_id_assignment
  have hids : assignedIds NewBookServer
      [Op.createOp ⟨"", "A", "a", 10, "", 0⟩, Op.deleteOp "book-1",
        Op.createOp ⟨"", "B", "b", 20, "", 0⟩] = ["book-1", "book-2"] := by decide
  refine ⟨hids, h.2.2.2 _, by rw [h.2.2.1, hids]; rfl, ?_⟩
  exact (h.1 NewBookServer ⟨"", "A", "a", 10, "", 0⟩ ⟨"book-1", "图书创建成功"⟩
    ⟨[("book-1", ⟨"book-1", "A", "a", 10, "", 0⟩)], 1⟩ (by rfl)).1

/-- Witness for C10 at concrete requests on a concrete store. -/
theorem C10_reads_preserve_state_witness :
    (GetBook ⟨[("book-1", ⟨"book-1", "T", "A", 10, "", 2020⟩)], 1⟩ ⟨"book-1"⟩).2 =
      ⟨[("book-1", ⟨"book-1", "T", "A", 10, "", 2020⟩)], 1⟩ ∧
    (ListBooks ⟨[("book-1", ⟨"book-1", "T", "A", 10, "", 2020⟩)], 1⟩ ⟨1, 10⟩).2 =
      ⟨[("book-1", ⟨"book-1", "T", "A", 10, "", 2020⟩)], 1⟩ ∧
    (SearchBooksByPrice ⟨[("book-1", ⟨"book-1", "T", "A", 10, "", 2020⟩)], 1⟩ ⟨0, 50⟩).2 =
      ⟨[("book-1", ⟨"book-1", "T", "A", 10, "", 2020⟩)], 1⟩ :=
  C10_reads_preserve_state ⟨[("book-1", ⟨"book-1", "T", "A", 10, "", 2020⟩)], 1⟩
    ⟨"book-1"⟩ ⟨1, 10⟩ ⟨0, 50⟩
